import Mathlib

/-!
Verification development for the repository tree-fetch subsystem of
`app/modules/code_provider/github/github_service.py`:

* `fetchRepoStructureAsync` embeds `GithubService._fetch_repo_structure_async`
  (the depth-limited tree walker);
* `formatTreeStructure` embeds `GithubService._format_tree_structure`
  (the indented-outline formatter, with Python's stable `sorted`);
* `getProjectStructureAsync` embeds `GithubService.get_project_structure_async`
  (the cache-aside orchestrator).

Python string operations are modelled on code-point lists (`List Char`),
which is exactly Python's `str` semantics.  Remote calls, the project
lookup and the cache are passed in as explicit functions; an exception
raised by a call is modelled as `none` / `Except.error`.  The walker and
the orchestrator additionally return an instrumentation trace (which
paths were listed, how many walker / credential-resolver / probe calls
were made) so that "performs no listing" claims are statable.
-/

/-! ## Python string primitives on code points -/

/-- Python `s.startswith(p)` on code-point lists: `startsWithChars s p`
is `true` iff `p` is an initial segment of `s`. -/
def startsWithChars : List Char → List Char → Bool
  | _, [] => true
  | [], _ :: _ => false
  | c :: s, p :: ps => c == p && startsWithChars s ps

/-- Python `s.startswith(p)`. -/
def strStartsWith (s p : String) : Bool := startsWithChars s.data p.data

/-- Python `s.endswith(p)` (case-sensitive raw suffix test). -/
def strEndsWith (s p : String) : Bool := startsWithChars s.data.reverse p.data.reverse

/-- Python `s.split("/")` on code-point lists: always returns at least one
(possibly empty) segment, and adjacent separators produce empty segments. -/
def splitSlashChars : List Char → List (List Char)
  | [] => [[]]
  | c :: rest =>
    if c == '/' then [] :: splitSlashChars rest
    else
      match splitSlashChars rest with
      | [] => [[c]]
      | seg :: segs => (c :: seg) :: segs

/-- Python `s.split("/")`. -/
def pathSegments (s : String) : List String := (splitSlashChars s.data).map String.mk

/-- Python `s.strip("/")`: remove leading and trailing `'/'` characters. -/
def stripSlashes (s : String) : String :=
  String.mk (((s.data.dropWhile (· == '/')).reverse.dropWhile (· == '/')).reverse)

/-- Python `len(s)` (number of code points). -/
def strLen (s : String) : Nat := s.data.length

/-- Python `s[n:]` (drop the first `n` code points). -/
def strDrop (s : String) (n : Nat) : String := String.mk (s.data.drop n)

/-- Python truthiness of an optional string: `None` and `""` are falsy. -/
def pyTruthy : Option String → Bool
  | none => false
  | some s => s != ""

/-- Code-point lexicographic `≤` on strings-as-lists; this is how Python
compares `str` values, so it is the key order used by `sorted`. -/
def charsLe : List Char → List Char → Bool
  | [], _ => true
  | _ :: _, [] => false
  | c :: cs, d :: ds => if c = d then charsLe cs ds else decide (c < d)

/-! ## Data model -/

/-- One entry of a GitHub directory listing as consumed by the walker:
the `type` (`"dir"` or `"file"`), `name` (final segment) and full `path`. -/
structure ContentItem where
  type : String
  name : String
  path : String
deriving DecidableEq, Repr

/-- The nested dictionaries built by the walker: a file node
`{"type": "file", "name": n, "path": p}` or a directory node
`{"type": "directory", "name": n, "children": cs}`. -/
inductive Node where
  | file (name path : String)
  | dir (name : String) (children : List Node)

/-- The `"name"` field, present on both node shapes. -/
def Node.name : Node → String
  | .file n _ => n
  | .dir n _ => n

/-- The `"children"` field; file nodes have none. -/
def Node.children : Node → List Node
  | .file _ _ => []
  | .dir _ cs => cs

mutual
/-- Structural decidable equality for `Node` (hand-written: the nested
`List Node` field defeats the deriving handler). -/
def nodeDecEq : (a b : Node) → Decidable (a = b)
  | .file n p, .file n' p' =>
    if h1 : n = n' then
      if h2 : p = p' then isTrue (by rw [h1, h2])
      else isFalse (fun h => by cases h; exact absurd rfl h2)
    else isFalse (fun h => by cases h; exact absurd rfl h1)
  | .file _ _, .dir _ _ => isFalse (fun h => Node.noConfusion h)
  | .dir _ _, .file _ _ => isFalse (fun h => Node.noConfusion h)
  | .dir n cs, .dir n' cs' =>
    if h1 : n = n' then
      match nodeListDecEq cs cs' with
      | isTrue h2 => isTrue (by rw [h1, h2])
      | isFalse h2 => isFalse (fun h => by cases h; exact absurd rfl h2)
    else isFalse (fun h => by cases h; exact absurd rfl h1)
/-- Decidable equality for lists of nodes (see `nodeDecEq`). -/
def nodeListDecEq : (as bs : List Node) → Decidable (as = bs)
  | [], [] => isTrue rfl
  | [], _ :: _ => isFalse (fun h => List.noConfusion h)
  | _ :: _, [] => isFalse (fun h => List.noConfusion h)
  | a :: as, b :: bs =>
    match nodeDecEq a b with
    | isTrue h1 =>
      match nodeListDecEq as bs with
      | isTrue h2 => isTrue (by rw [h1, h2])
      | isFalse h2 => isFalse (fun h => by cases h; exact absurd rfl h2)
    | isFalse h1 => isFalse (fun h => by cases h; exact absurd rfl h1)
end

instance : DecidableEq Node := nodeDecEq

/-- Occurrence predicate `FileInTree n p t`: the file entry `{"type": "file", "name": n, "path": p}`
occurs somewhere in the tree `t`. -/
inductive FileInTree : String → String → Node → Prop
  | here (n p : String) : FileInTree n p (.file n p)
  | child {n p dn : String} {cs : List Node} {c : Node} :
      c ∈ cs → FileInTree n p c → FileInTree n p (.dir dn cs)

/-! ## The tree walker (`_fetch_repo_structure_async`) -/

/-- The `exclude_extensions` list of `_fetch_repo_structure_async`. -/
def excludeExtensions : List String :=
  ["png", "jpg", "jpeg", "gif", "bmp", "tiff", "webp", "ico", "svg",
   "mp4", "avi", "mov", "wmv", "flv", "ipynb", "zlib"]

/-- Embeds `any(item.name.endswith(ext) for ext in exclude_extensions)`. -/
def hasExcludedExt (name : String) : Bool :=
  excludeExtensions.any (fun ext => strEndsWith name ext)

/-- Embeds `self.max_depth` (set to 4 in `GithubService.__init__`). -/
def maxDepth : Nat := 4

/-- The depth recomputation at the top of `_fetch_repo_structure_async`
(lines 442-449): relative to a truthy `base_path` it is the number of
`"/"`-separated segments of `path[len(base_path):].strip("/")` (0 when that
remainder is empty); otherwise the number of segments of `path` (0 for ""). -/
def computeDepth (path : String) (basePath : Option String) : Nat :=
  if pyTruthy basePath then
    let rel := stripSlashes (strDrop path (strLen (basePath.getD "")))
    if rel = "" then 0 else (pathSegments rel).length
  else
    if path = "" then 0 else (pathSegments path).length

/-- Embeds `path.split("/")[-1]`. -/
def lastSegment (path : String) : String := (pathSegments path).getLastD ""

/-- Embeds `path.split("/")[-1] or repo.name` (Python `or`: "" falls back). -/
def nodeName (path rn : String) : String :=
  if lastSegment path = "" then rn else lastSegment path

/-- The extension filter of the listing comprehension (lines 473-479):
keep directories unconditionally, and non-directories whose name does not
end with an excluded extension. -/
def keepItem (it : ContentItem) : Bool :=
  it.type == "dir" || !(hasExcludedExt it.name)

/-- The scope filter of the per-item loop (lines 483-485): with a truthy
`base_path`, skip entries whose `path` does not start with it. -/
def inScope (bp : Option String) (it : ContentItem) : Bool :=
  !(pyTruthy bp) || strStartsWith it.path (bp.getD "")

/-- The entries of a listing that survive both filters, in listing order. -/
def retainEntries (bp : Option String) (items : List ContentItem) : List ContentItem :=
  (items.filter keepItem).filter (inScope bp)

/-- Shallow embedding of `_fetch_repo_structure_async`.

* `g` is `repo.get_contents` after the single-item normalisation: `g path`
  is `none` when the call raises and otherwise the listed entries;
* `rn` is `repo.name`, `bp` is `base_path`, `currentDepth` the caller's
  (immediately overwritten) `current_depth` argument;
* `fuel` bounds the recursion depth of the model (the Python recursion has
  no such bound; every claim is stated with enough fuel in hand).

The result is the built node paired with the trace of paths for which
`g` was invoked; the depth-limit branch returns before any listing, so
its trace is empty.  Files are appended during the loop in listing
order, then the `asyncio.gather` results are appended in task-issue
order, exactly as in the source. -/
def fetchRepoStructureAsync (g : String → Option (List ContentItem)) (rn : String)
    (bp : Option String) (fuel : Nat) (path : String) (currentDepth : Nat) :
    Node × List String :=
  let depth := computeDepth path bp
  if maxDepth ≤ depth then
    (.dir (nodeName path rn) [.file "..." "truncated"], [])
  else
    match g path with
    | none => (.dir (nodeName path rn) [], [path])
    | some items =>
      let retained := retainEntries bp items
      let files := (retained.filter (fun it => !(it.type == "dir"))).map
        (fun it => Node.file it.name it.path)
      let dirs := retained.filter (fun it => it.type == "dir")
      match fuel with
      | 0 => (.dir (nodeName path rn) files, [path])
      | fuel' + 1 =>
        let results := dirs.map (fun it => fetchRepoStructureAsync g rn bp fuel' it.path depth)
        (.dir (nodeName path rn) (files ++ results.map Prod.fst),
          path :: results.flatMap Prod.snd)

/-! ## The formatter (`_format_tree_structure`) -/

/-- The key order of `sorted(children, key=lambda x: x["name"])`. -/
def nameLeRel (a b : Node) : Prop := charsLe a.name.data b.name.data = true

instance : DecidableRel nameLeRel := fun a b =>
  inferInstanceAs (Decidable (charsLe a.name.data b.name.data = true))

/-- Embeds `sorted(children, key=lambda x: x["name"])`: Python's `sorted` is the
stable ascending sort by the key order, which is extensionally the stable
insertion sort by `nameLeRel`. -/
def sortChildren (cs : List Node) : List Node := cs.insertionSort nameLeRel

mutual
/-- Height of a tree: a model-side recursion bound for the fuelled
formatter; `formatNode` with fuel `nodeHeight t` fully traverses `t`. -/
def nodeHeight : Node → Nat
  | .file _ _ => 0
  | .dir _ cs => listHeight cs + 1
/-- Height of a list of trees (see `nodeHeight`). -/
def listHeight : List Node → Nat
  | [] => 0
  | c :: cs => max (nodeHeight c) (listHeight cs)
end

/-- Python `"  " * depth`. -/
def indentOf (d : Nat) : String := String.mk (List.replicate (2 * d) ' ')

/-- Shallow embedding of the inner `_format_node(node, depth)`: emit the
node's own line except at depth 0, then (for directory nodes only — file
dicts carry no `"children"` key) the recursively formatted children in
sorted order.  `fuel` bounds the recursion; with `fuel ≥ nodeHeight node`
it never runs out. -/
def formatNode : Nat → Node → Nat → List String
  | fuel, node, depth =>
    let line := if depth > 0 then [indentOf depth ++ node.name] else []
    match node, fuel with
    | .file _ _, _ => line
    | .dir _ _, 0 => line
    | .dir _ cs, f + 1 =>
      line ++ (sortChildren cs).flatMap (fun c => formatNode f c (depth + 1))

/-- Python `"\n".join(lines)`. -/
def joinLines : List String → String
  | [] => ""
  | [l] => l
  | l :: l2 :: ls => l ++ "\n" ++ joinLines (l2 :: ls)

/-- Shallow embedding of `_format_tree_structure`. -/
def formatTreeStructure (st : Node) : String :=
  joinLines (formatNode (nodeHeight st) st 0)

/-! ## The orchestrator (`get_project_structure_async`) -/

/-- Structured Python exceptions as seen by the orchestrator: either a
`fastapi.HTTPException` with a status code and detail, or any other
exception carrying only its message. -/
inductive PyErr where
  | http (status : Nat) (detail : String)
  | exn (msg : String)
deriving DecidableEq, Repr

/-- The repository handle produced by `get_repo`: its `name` and its
`get_contents` function (`none` = the call raises). -/
structure RepoHandle where
  name : String
  contents : String → Option (List ContentItem)

/-- The project record as returned by `get_project_from_db_by_id`
(`project["project_name"]` may be missing/empty). -/
structure ProjectRecord where
  projectName : Option String

/-- The orchestrator's collaborators: the Redis cache (`get`), the project
lookup, the credential resolver (`get_repo`, which in the source raises
only `HTTPException`s but is modelled as an arbitrary fallible step), and
whether `redis.setex` raises (`some msg`) or succeeds (`none`). -/
structure Env where
  cache : String → Option String
  project : String → Option ProjectRecord
  getRepo : String → Except PyErr RepoHandle
  setexErr : Option String

/-- Python `f"...{path}..."` on an `Optional[str]` renders `None` literally. -/
def pyOptStr : Option String → String
  | none => "None"
  | some s => s

/-- The cache key
`f"project_structure:{project_id}:exact_path_{path}:depth_{self.max_depth}"`. -/
def cacheKey (projectId : String) (path : Option String) : String :=
  "project_structure:" ++ projectId ++ ":exact_path_" ++ pyOptStr path
    ++ ":depth_" ++ toString maxDepth

/-- The `except` clauses at the orchestrator boundary: an `HTTPException`
is re-raised unchanged, anything else becomes a 500 whose detail carries
the original message. -/
def wrapErr : PyErr → PyErr
  | .http s d => .http s d
  | .exn m => .http 500 ("Failed to fetch project structure: " ++ m)

instance {ε α : Type} [DecidableEq ε] [DecidableEq α] : DecidableEq (Except ε α) :=
  fun a b =>
    match a, b with
    | .ok x, .ok y =>
      if h : x = y then isTrue (by rw [h])
      else isFalse (fun hh => by cases hh; exact absurd rfl h)
    | .error x, .error y =>
      if h : x = y then isTrue (by rw [h])
      else isFalse (fun hh => by cases hh; exact absurd rfl h)
    | .ok _, .error _ => isFalse (fun hh => Except.noConfusion hh)
    | .error _, .ok _ => isFalse (fun hh => Except.noConfusion hh)

/-- The observable outcome of one `get_project_structure_async` call:
its result, the cache writes it performed, and how many credential
resolutions (`get_repo`), scope-path existence probes and tree-walker
invocations it made. -/
structure CallTrace where
  result : Except PyErr String
  cacheWrites : List (String × String)
  getRepoCalls : Nat
  probeCalls : Nat
  walkerCalls : Nat
deriving DecidableEq, Repr

/-- Shallow embedding of `get_project_structure_async`: check the cache
(a truthy hit is decoded and returned at once), look up the project
(404 when absent, 400 when it has no repository name), resolve the repo
handle, probe a truthy scope path (any probe failure becomes a 404),
walk from `path or ""` at depth 0 with `base_path = path`, format, store
with TTL 3600, and return; `HTTPException`s pass through, any other
failure is wrapped into a 500. -/
def getProjectStructureAsync (env : Env) (projectId : String)
    (path : Option String) (fuel : Nat) : CallTrace :=
  let key := cacheKey projectId path
  let cached := env.cache key
  if pyTruthy cached then
    ⟨.ok (cached.getD ""), [], 0, 0, 0⟩
  else
    match env.project projectId with
    | none => ⟨.error (.http 404 "Project not found"), [], 0, 0, 0⟩
    | some proj =>
      if !(pyTruthy proj.projectName) then
        ⟨.error (.http 400 "Project has no associated GitHub repository"), [], 0, 0, 0⟩
      else
        match env.getRepo (proj.projectName.getD "") with
        | .error e => ⟨.error (wrapErr e), [], 1, 0, 0⟩
        | .ok repo =>
          if pyTruthy path && (repo.contents (path.getD "")).isNone then
            ⟨.error (.http 404 ("Path " ++ path.getD "" ++ " not found in repository")),
              [], 1, 1, 0⟩
          else
            let probes := if pyTruthy path then 1 else 0
            let st := fetchRepoStructureAsync repo.contents repo.name path fuel
              (path.getD "") 0
            let formatted := formatTreeStructure st.1
            match env.setexErr with
            | some m =>
              ⟨.error (.http 500 ("Failed to fetch project structure: " ++ m)),
                [], 1, probes, 1⟩
            | none => ⟨.ok formatted, [(key, formatted)], 1, probes, 1⟩

/-! ## Auxiliary definitions used by the claim statements, witnesses and
counterexamples -/

/-- The effective-depth formula exactly as the specification words it
(for comparison against the source-derived `computeDepth`): with a base
path, strip the `basePath` prefix from `path`, trim surrounding slashes,
and count `"/"`-separated segments (0 if the remainder is empty); without
one, count the segments of `path` (0 for the empty path). -/
def specEffectiveDepth (path : String) (basePath : Option String) : Nat :=
  match basePath with
  | some bp =>
    let rel := stripSlashes
      (if strStartsWith path bp then strDrop path (strLen bp) else path)
    if rel = "" then 0 else (pathSegments rel).length
  | none => if path = "" then 0 else (pathSegments path).length

/-- The file children a successful listing contributes, in listing order. -/
def walkFiles (bp : Option String) (items : List ContentItem) : List Node :=
  ((retainEntries bp items).filter (fun it => !(it.type == "dir"))).map
    (fun it => Node.file it.name it.path)

/-- The retained directory entries of a successful listing, in listing order. -/
def walkDirs (bp : Option String) (items : List ContentItem) : List ContentItem :=
  (retainEntries bp items).filter (fun it => it.type == "dir")

/-- The listing used by the C5 witness: the root holds an excluded file
`diagram.svg` and a directory `images.svg` whose name also ends in an
excluded extension. -/
def gC5 : String → Option (List ContentItem)
  | "" => some [⟨"file", "diagram.svg", "diagram.svg"⟩, ⟨"dir", "images.svg", "images.svg"⟩]
  | _ => some []

/-- The listing used by the C10 witness: two dotless names that end with
excluded extension strings. -/
def gC10 : String → Option (List ContentItem)
  | "" => some [⟨"file", "png", "png"⟩, ⟨"file", "mysvg", "mysvg"⟩]
  | _ => some []

/-- The status code of a call result, when it failed with an HTTP error. -/
def exceptStatus : Except PyErr String → Option Nat
  | .error (.http s _) => some s
  | _ => none

/-- Environment for the C6 counterexample and witness: empty cache, and the
project record exists but carries no repository name. -/
def envC6 : Env := ⟨fun _ => none, fun _ => some ⟨none⟩, fun _ => .error (.exn "x"), none⟩

/-- Environment whose project lookup finds nothing. -/
def envC6missing : Env := ⟨fun _ => none, fun _ => none, fun _ => .error (.exn "x"), none⟩

/-- Environment where the credential resolver fails with an HTTP 404
(as `get_repo` does in the source). -/
def envC7http : Env :=
  ⟨fun _ => none, fun _ => some ⟨some "o/r"⟩,
    fun _ => .error (.http 404 "Repository o/r not found or inaccessible on GitHub"), none⟩

/-- Environment where the resolver fails with a plain exception. -/
def envC7exn : Env :=
  ⟨fun _ => none, fun _ => some ⟨some "o/r"⟩, fun _ => .error (.exn "boom"), none⟩

/-- Environment where the walk succeeds but `redis.setex` raises. -/
def envC7setex : Env :=
  ⟨fun _ => none, fun _ => some ⟨some "o/r"⟩,
    fun _ => .ok ⟨"r", fun _ => some []⟩, some "redis down"⟩

/-- First-call environment for the C8 counterexample/witness: empty cache,
a project with a repository, and a repository whose root listing is empty
(so the formatted output is the empty string in the counterexample) or
holds one file (witness). -/
def envC8 : Env :=
  ⟨fun _ => none, fun _ => some ⟨some "o/r"⟩, fun _ => .ok ⟨"r", fun _ => some []⟩, none⟩

/-- Environment `envC8` after the first call's write of `""` under the key. -/
def envC8second : Env :=
  ⟨fun k => if k = cacheKey "p1" none then some "" else none,
    fun _ => some ⟨some "o/r"⟩, fun _ => .ok ⟨"r", fun _ => some []⟩, none⟩

/-- Environment with one root file, for the C8 witness's first call. -/
def envC8w : Env :=
  ⟨fun _ => none, fun _ => some ⟨some "o/r"⟩,
    fun _ => .ok ⟨"r", fun _ => some [⟨"file", "a.txt", "a.txt"⟩]⟩, none⟩

/-- Environment `envC8w` after the first call's write under the cache key. -/
def envC8wsecond : Env :=
  ⟨fun k => if k = cacheKey "p1" none then some "  a.txt" else none,
    fun _ => some ⟨some "o/r"⟩,
    fun _ => .ok ⟨"r", fun _ => some [⟨"file", "a.txt", "a.txt"⟩]⟩, none⟩

/-- Environment for the C9 counterexample: the cache holds the entry `""`
under every key, and the project record does not exist. -/
def envC9 : Env := ⟨fun _ => some "", fun _ => none, fun _ => .error (.exn "x"), none⟩

/-- Environment for the C9 witness: the cache holds `"  cached"` while the
project record is gone and the resolver always fails. -/
def envC9w : Env := ⟨fun _ => some "  cached", fun _ => none, fun _ => .error (.exn "x"), none⟩

/-! ## Claim C1: the depth limit -/

/-- C1. Whenever the computed depth of `path` (relative to `base_path` when
truthy, otherwise from the repository root) is at least `max_depth = 4`, the
walker returns a directory node whose children are exactly the single
truncation marker `{"type": "file", "name": "...", "path": "truncated"}`,
with an empty listing trace: no directory listing is performed and no
recursive call is issued for that path. -/
theorem spec_C1 (g : String → Option (List ContentItem)) (rn : String)
    (bp : Option String) (fuel : Nat) (path : String) (cd : Nat)
    (h : maxDepth ≤ computeDepth path bp) :
    fetchRepoStructureAsync g rn bp fuel path cd =
      (.dir (nodeName path rn) [.file "..." "truncated"], []) := by
  unfold fetchRepoStructureAsync
  simp [h]

/-- Witness for C1 at the concrete path `"a/b/c/d"` (depth 4 from the root),
with a listing function that would happily return entries: the walker still
lists nothing. -/
theorem spec_C1_witness :
    maxDepth ≤ computeDepth "a/b/c/d" none ∧
      fetchRepoStructureAsync (fun _ => some [⟨"file", "f.txt", "a/b/c/d/f.txt"⟩])
          "repo" none 5 "a/b/c/d" 0 =
        (.dir "d" [.file "..." "truncated"], []) :=
  ⟨by decide,
    spec_C1 (fun _ => some [⟨"file", "f.txt", "a/b/c/d/f.txt"⟩]) "repo" none 5 "a/b/c/d" 0
      (by decide)⟩

/-! ## Claim C2: the depth is recomputed from the path alone -/

/-- C2. The walker's result never depends on the caller-supplied
`current_depth` argument, because the effective depth is recomputed from
`path` on every invocation; and the recomputed depth agrees with the
specification's formula: with a (non-empty) `base_path` that is a prefix of
`path` it is the segment count of the stripped remainder, and with no
`base_path` it is the segment count of `path` itself. -/
theorem spec_C2 :
    (∀ (g : String → Option (List ContentItem)) (rn : String) (bp : Option String)
        (fuel : Nat) (path : String) (cd cd' : Nat),
        fetchRepoStructureAsync g rn bp fuel path cd =
          fetchRepoStructureAsync g rn bp fuel path cd') ∧
    (∀ (path bp : String), bp ≠ "" → strStartsWith path bp = true →
        computeDepth path (some bp) = specEffectiveDepth path (some bp)) ∧
    (∀ path : String, computeDepth path none = specEffectiveDepth path none) := by
  refine ⟨fun g rn bp fuel path cd cd' => ?_, fun path bp hbp hpre => ?_, fun path => rfl⟩
  · conv_lhs => rw [fetchRepoStructureAsync.eq_def]
    conv_rhs => rw [fetchRepoStructureAsync.eq_def]
  · unfold computeDepth specEffectiveDepth
    have ht : pyTruthy (some bp) = true := by
      simpa [pyTruthy] using hbp
    simp [ht, hpre]

/-- Witness for C2: at `path = "a/b/c"`, `base_path = "a"`, the two depth
formulas agree (both give 2), and the walker result at `current_depth = 0`
equals the one at `current_depth = 99`. -/
theorem spec_C2_witness :
    fetchRepoStructureAsync (fun _ => some []) "repo" (some "a") 3 "a/b/c" 0 =
        fetchRepoStructureAsync (fun _ => some []) "repo" (some "a") 3 "a/b/c" 99 ∧
      (("a" : String) ≠ "" ∧ strStartsWith "a/b/c" "a" = true ∧
        computeDepth "a/b/c" (some "a") = specEffectiveDepth "a/b/c" (some "a")) :=
  ⟨spec_C2.1 (fun _ => some []) "repo" (some "a") 3 "a/b/c" 0 99,
    by decide, by decide, spec_C2.2.1 "a/b/c" "a" (by decide) (by decide)⟩

/-! ## Claim C3: listing failures are swallowed -/

/-- C3. First conjunct: if listing the contents at `path` raises (below the
depth limit, where a listing is attempted at all), the walker does not
propagate the exception — it returns the directory node for that path with
the children collected so far (necessarily none, since the fetch precedes
every append).  Second conjunct: on a successful listing the node keeps one
child per retained entry, whatever happens inside the subtrees — so a
failure inside one subtree never removes its siblings from the result. -/
theorem spec_C3 :
    (∀ (g : String → Option (List ContentItem)) (rn : String) (bp : Option String)
        (fuel : Nat) (path : String) (cd : Nat),
        computeDepth path bp < maxDepth → g path = none →
        fetchRepoStructureAsync g rn bp fuel path cd =
          (.dir (nodeName path rn) [], [path])) ∧
    (∀ (g : String → Option (List ContentItem)) (rn : String) (bp : Option String)
        (fuel : Nat) (path : String) (cd : Nat) (items : List ContentItem),
        computeDepth path bp < maxDepth → g path = some items →
        ((fetchRepoStructureAsync g rn bp (fuel + 1) path cd).1).children.length =
          (retainEntries bp items).length) := by
  constructor
  · intro g rn bp fuel path cd hd hg
    unfold fetchRepoStructureAsync
    simp [Nat.not_le.mpr hd, hg]
  · intro g rn bp fuel path cd items hd hg
    unfold fetchRepoStructureAsync
    simp only [Nat.not_le.mpr hd, if_false, hg, Node.children, List.length_append,
      List.length_map]
    have hsplit := @List.length_eq_length_filter_add _ (retainEntries bp items)
      (fun it => it.type == "dir")
    simp only at hsplit
    omega

/-- Witness for C3: a root listing with two subdirectories where listing
`"bad"` raises: the failed node is present with no children, and its
successfully-listed sibling `"good"` still appears with its file. -/
theorem spec_C3_witness :
    computeDepth "bad" none < maxDepth ∧
      fetchRepoStructureAsync
          (fun p => if p = "bad" then none
            else if p = "good" then some [⟨"file", "f.txt", "good/f.txt"⟩]
            else some [⟨"dir", "good", "good"⟩, ⟨"dir", "bad", "bad"⟩])
          "repo" none 2 "bad" 1 =
        (.dir "bad" [], ["bad"]) ∧
      fetchRepoStructureAsync
          (fun p => if p = "bad" then none
            else if p = "good" then some [⟨"file", "f.txt", "good/f.txt"⟩]
            else some [⟨"dir", "good", "good"⟩, ⟨"dir", "bad", "bad"⟩])
          "repo" none 2 "" 0 =
        (.dir "repo"
            [.dir "good" [.file "f.txt" "good/f.txt"], .dir "bad" []],
          ["", "good", "bad"]) :=
  ⟨by decide,
    spec_C3.1
      (fun p => if p = "bad" then none
        else if p = "good" then some [⟨"file", "f.txt", "good/f.txt"⟩]
        else some [⟨"dir", "good", "good"⟩, ⟨"dir", "bad", "bad"⟩])
      "repo" none 2 "bad" 1 (by decide) (by decide),
    by decide⟩

/-! ## Claim C4: the formatter -/

theorem charsLe_total : ∀ a b : List Char, charsLe a b = true ∨ charsLe b a = true := by
  intro a
  induction a with
  | nil => intro b; left; rfl
  | cons c cs ih =>
    intro b
    cases b with
    | nil => right; rfl
    | cons d ds =>
      by_cases h : c = d
      · subst h
        rcases ih ds with h1 | h1
        · left; simpa [charsLe] using h1
        · right; simpa [charsLe] using h1
      · rcases lt_trichotomy c d with hlt | heq | hgt
        · left; simp [charsLe, h, hlt]
        · exact absurd heq h
        · right; simp [charsLe, Ne.symm h, hgt]

theorem charsLe_trans : ∀ a b c : List Char,
    charsLe a b = true → charsLe b c = true → charsLe a c = true := by
  intro a
  induction a with
  | nil => intro b c _ _; rfl
  | cons x xs ih =>
    intro b c hab hbc
    cases b with
    | nil => simp [charsLe] at hab
    | cons y ys =>
      cases c with
      | nil => simp [charsLe] at hbc
      | cons z zs =>
        by_cases hxy : x = y
        · subst hxy
          simp only [charsLe, if_pos rfl] at hab
          by_cases hyz : x = z
          · subst hyz
            simp only [charsLe, if_pos rfl] at hbc ⊢
            exact ih ys zs hab hbc
          · simp only [charsLe, if_neg hyz] at hbc ⊢
            exact hbc
        · have hxylt : x < y := by simpa [charsLe, hxy] using hab
          by_cases hyz : y = z
          · subst hyz
            simp [charsLe, hxy, hxylt]
          · have hyzlt : y < z := by simpa [charsLe, hyz] using hbc
            have hxz : x < z := lt_trans hxylt hyzlt
            simp [charsLe, ne_of_lt hxz, hxz]

theorem charsLe_antisymm : ∀ a b : List Char,
    charsLe a b = true → charsLe b a = true → a = b := by
  intro a
  induction a with
  | nil =>
    intro b _ hba
    cases b with
    | nil => rfl
    | cons d ds => simp [charsLe] at hba
  | cons x xs ih =>
    intro b hab hba
    cases b with
    | nil => simp [charsLe] at hab
    | cons y ys =>
      by_cases hxy : x = y
      · subst hxy
        simp only [charsLe, if_pos rfl] at hab hba
        rw [ih ys hab hba]
      · have h1 : x < y := by simpa [charsLe, hxy] using hab
        have h2 : y < x := by simpa [charsLe, Ne.symm hxy] using hba
        exact absurd h1 (asymm h2)

theorem sortChildren_sorted (cs : List Node) : List.Sorted nameLeRel (sortChildren cs) := by
  haveI : IsTotal Node nameLeRel :=
    ⟨fun a b => charsLe_total a.name.data b.name.data⟩
  haveI : IsTrans Node nameLeRel :=
    ⟨fun a b c => charsLe_trans a.name.data b.name.data c.name.data⟩
  exact List.sorted_insertionSort nameLeRel cs

theorem sortChildren_perm (cs : List Node) : (sortChildren cs).Perm cs :=
  List.perm_insertionSort nameLeRel cs

/-- Stable-sort uniqueness: two permutations of a sibling set with
pairwise-distinct names sort to the same list. -/
theorem sortChildren_eq_of_perm {cs cs' : List Node} (hperm : cs.Perm cs')
    (hnodup : (cs.map Node.name).Nodup) : sortChildren cs = sortChildren cs' := by
  have hperm2 : (sortChildren cs).Perm (sortChildren cs') :=
    ((sortChildren_perm cs).trans hperm).trans (sortChildren_perm cs').symm
  have hpne : List.Pairwise (fun a b : Node => a.name ≠ b.name) cs := by
    simpa [List.Nodup, List.pairwise_map] using hnodup
  have hpne' : List.Pairwise (fun a b : Node => a.name ≠ b.name) cs' :=
    (hperm.pairwise_iff (fun h => h.symm)).mp hpne
  have hs1 : List.Pairwise (fun a b : Node => nameLeRel a b ∧ a.name ≠ b.name)
      (sortChildren cs) :=
    (sortChildren_sorted cs).and
      (((sortChildren_perm cs).pairwise_iff (fun h => h.symm)).mpr hpne)
  have hs2 : List.Pairwise (fun a b : Node => nameLeRel a b ∧ a.name ≠ b.name)
      (sortChildren cs') :=
    (sortChildren_sorted cs').and
      (((sortChildren_perm cs').pairwise_iff (fun h => h.symm)).mpr hpne')
  haveI : IsAntisymm Node (fun a b : Node => nameLeRel a b ∧ a.name ≠ b.name) :=
    ⟨fun a b h1 h2 =>
      absurd (String.ext (charsLe_antisymm a.name.data b.name.data h1.1 h2.1)) h1.2⟩
  exact List.eq_of_perm_of_sorted hperm2 hs1 hs2

theorem listHeight_perm {l1 l2 : List Node} (h : l1.Perm l2) :
    listHeight l1 = listHeight l2 := by
  induction h with
  | nil => rfl
  | cons x _ ih => simp [listHeight, ih]
  | swap x y l => simp only [listHeight]; exact Nat.max_left_comm _ _ _
  | trans _ _ ih1 ih2 => exact ih1.trans ih2

/-- C4 (amended). The formatter never emits a line for the root node — its
output does not depend on the root's name; each sibling set is emitted in
ascending lexicographic order of `name` (the order `sorted` uses); and for
sibling sets whose names are pairwise distinct the output is invariant
under any permutation of the children list, so concurrent completion order
cannot affect the text.  (As stated over all trees the permutation clause
fails: with duplicate sibling names the stable sort preserves their
relative order — see the counterexample.) -/
theorem spec_C4 :
    (∀ (nm nm' : String) (cs : List Node),
        formatTreeStructure (.dir nm cs) = formatTreeStructure (.dir nm' cs)) ∧
    (∀ cs : List Node, List.Sorted nameLeRel (sortChildren cs)) ∧
    (∀ (nm : String) (cs cs' : List Node), cs.Perm cs' →
        (cs.map Node.name).Nodup →
        formatTreeStructure (.dir nm cs) = formatTreeStructure (.dir nm cs')) := by
  refine ⟨fun nm nm' cs => rfl, sortChildren_sorted, fun nm cs cs' hperm hnodup => ?_⟩
  unfold formatTreeStructure
  have hh : nodeHeight (.dir nm cs) = nodeHeight (.dir nm cs') := by
    simp [nodeHeight, listHeight_perm hperm]
  rw [hh]
  simp [nodeHeight, formatNode, sortChildren_eq_of_perm hperm hnodup]

/-- Counterexample to C4 as stated: two sibling directories share the name
`"a"` but have different contents; swapping them permutes the children yet
changes the formatted text (the stable sort keeps equal names in their
original order). -/
theorem spec_C4_cex :
    ([Node.dir "a" [Node.file "y" "y"], Node.dir "a" [Node.file "x" "x"]] :
        List Node).Perm
      [Node.dir "a" [Node.file "x" "x"], Node.dir "a" [Node.file "y" "y"]] ∧
    formatTreeStructure
        (.dir "r" [Node.dir "a" [Node.file "y" "y"], Node.dir "a" [Node.file "x" "x"]]) ≠
      formatTreeStructure
        (.dir "r" [Node.dir "a" [Node.file "x" "x"], Node.dir "a" [Node.file "y" "y"]]) :=
  ⟨List.Perm.swap _ _ _, by decide⟩

/-- Witness for C4's permutation clause: distinct sibling names, permuted
children, identical output. -/
theorem spec_C4_witness :
    ([Node.file "b.txt" "b.txt", Node.dir "a" []] : List Node).Perm
        [Node.dir "a" [], Node.file "b.txt" "b.txt"] ∧
      ([Node.file "b.txt" "b.txt", Node.dir "a" []].map Node.name).Nodup ∧
      formatTreeStructure (.dir "r" [Node.file "b.txt" "b.txt", Node.dir "a" []]) =
        formatTreeStructure (.dir "r" [Node.dir "a" [], Node.file "b.txt" "b.txt"]) :=
  ⟨List.Perm.swap _ _ _, by decide,
    spec_C4.2.2 "r" [Node.file "b.txt" "b.txt", Node.dir "a" []]
      [Node.dir "a" [], Node.file "b.txt" "b.txt"] (List.Perm.swap _ _ _) (by decide)⟩

/-! ## Claims C5 and C10: the extension filter -/

theorem walk_depth_eq (g : String → Option (List ContentItem)) (rn : String)
    (bp : Option String) (fuel : Nat) (path : String) (cd : Nat)
    (h : maxDepth ≤ computeDepth path bp) :
    fetchRepoStructureAsync g rn bp fuel path cd =
      (.dir (nodeName path rn) [.file "..." "truncated"], []) := by
  unfold fetchRepoStructureAsync
  simp [h]

theorem walk_fail_eq (g : String → Option (List ContentItem)) (rn : String)
    (bp : Option String) (fuel : Nat) (path : String) (cd : Nat)
    (hd : computeDepth path bp < maxDepth) (hg : g path = none) :
    fetchRepoStructureAsync g rn bp fuel path cd =
      (.dir (nodeName path rn) [], [path]) := by
  unfold fetchRepoStructureAsync
  simp [Nat.not_le.mpr hd, hg]

theorem walk_zero_eq (g : String → Option (List ContentItem)) (rn : String)
    (bp : Option String) (path : String) (cd : Nat) (items : List ContentItem)
    (hd : computeDepth path bp < maxDepth) (hg : g path = some items) :
    fetchRepoStructureAsync g rn bp 0 path cd =
      (.dir (nodeName path rn) (walkFiles bp items), [path]) := by
  unfold fetchRepoStructureAsync
  simp [Nat.not_le.mpr hd, hg, walkFiles]

theorem walk_succ_eq (g : String → Option (List ContentItem)) (rn : String)
    (bp : Option String) (fuel : Nat) (path : String) (cd : Nat)
    (items : List ContentItem)
    (hd : computeDepth path bp < maxDepth) (hg : g path = some items) :
    fetchRepoStructureAsync g rn bp (fuel + 1) path cd =
      (.dir (nodeName path rn)
          (walkFiles bp items ++
            (walkDirs bp items).map (fun it =>
              (fetchRepoStructureAsync g rn bp fuel it.path (computeDepth path bp)).1)),
        path :: (walkDirs bp items).flatMap (fun it =>
          (fetchRepoStructureAsync g rn bp fuel it.path (computeDepth path bp)).2)) := by
  conv_lhs => rw [fetchRepoStructureAsync.eq_def]
  simp [Nat.not_le.mpr hd, hg, walkFiles, walkDirs, List.map_map, List.flatMap_map,
    Function.comp]

/-- A retained non-directory entry passed the extension filter. -/
theorem retained_file_excluded {bp : Option String} {items : List ContentItem}
    {it : ContentItem} (hmem : it ∈ retainEntries bp items)
    (hnd : ¬ it.type = "dir") : hasExcludedExt it.name = false := by
  unfold retainEntries at hmem
  simp only [List.mem_filter] at hmem
  obtain ⟨⟨_, hkeep⟩, _⟩ := hmem
  simp only [keepItem, Bool.or_eq_true, beq_iff_eq, Bool.not_eq_true'] at hkeep
  rcases hkeep with hdir | hex
  · exact absurd hdir hnd
  · exact hex

/-- No file node anywhere in a walker result has an excluded extension:
every file child is either the truncation marker `"..."` or passed the
filter, and directory children are recursively of the same shape. -/
theorem walk_excluded_false :
    ∀ (fuel : Nat) (g : String → Option (List ContentItem)) (rn : String)
      (bp : Option String) (path : String) (cd : Nat) (n p : String),
      FileInTree n p (fetchRepoStructureAsync g rn bp fuel path cd).1 →
      hasExcludedExt n = false := by
  intro fuel
  induction fuel with
  | zero =>
    intro g rn bp path cd n p h
    by_cases hd : maxDepth ≤ computeDepth path bp
    · rw [walk_depth_eq g rn bp 0 path cd hd] at h
      cases h with
      | child hc hsub =>
        simp only [List.mem_singleton] at hc
        subst hc
        cases hsub
        decide
    · cases hg : g path with
      | none =>
        rw [walk_fail_eq g rn bp 0 path cd (Nat.not_le.mp hd) hg] at h
        cases h with
        | child hc hsub => simp at hc
      | some items =>
        rw [walk_zero_eq g rn bp path cd items (Nat.not_le.mp hd) hg] at h
        cases h with
        | child hc hsub =>
          rcases (by simpa [walkFiles] using hc :
              ∃ it, (it ∈ retainEntries bp items ∧ ¬ it.type = "dir") ∧
                Node.file it.name it.path = _) with ⟨it, ⟨hmem, hnd⟩, heq⟩
          subst heq
          cases hsub
          exact retained_file_excluded hmem hnd
  | succ fuel ih =>
    intro g rn bp path cd n p h
    by_cases hd : maxDepth ≤ computeDepth path bp
    · rw [walk_depth_eq g rn bp (fuel + 1) path cd hd] at h
      cases h with
      | child hc hsub =>
        simp only [List.mem_singleton] at hc
        subst hc
        cases hsub
        decide
    · cases hg : g path with
      | none =>
        rw [walk_fail_eq g rn bp (fuel + 1) path cd (Nat.not_le.mp hd) hg] at h
        cases h with
        | child hc hsub => simp at hc
      | some items =>
        rw [walk_succ_eq g rn bp fuel path cd items (Nat.not_le.mp hd) hg] at h
        cases h with
        | child hc hsub =>
          rcases List.mem_append.mp hc with hl | hr
          · rcases (by simpa [walkFiles] using hl :
                ∃ it, (it ∈ retainEntries bp items ∧ ¬ it.type = "dir") ∧
                  Node.file it.name it.path = _) with ⟨it, ⟨hmem, hnd⟩, heq⟩
            subst heq
            cases hsub
            exact retained_file_excluded hmem hnd
          · rcases List.mem_map.mp hr with ⟨it, _, heq⟩
            subst heq
            exact ih g rn bp it.path (computeDepth path bp) n p hsub

/-- Membership in a node's children list embeds into `FileInTree`. -/
theorem fileInTree_of_mem_children {n p : String} {t : Node}
    (h : Node.file n p ∈ t.children) : FileInTree n p t := by
  cases t with
  | file _ _ => simp [Node.children] at h
  | dir dn cs => exact .child h (.here n p)

/-- C5. First conjunct: no file whose name ends (case-sensitively) with one
of the excluded extensions ever appears anywhere in a walker result — every
non-directory listing entry with such a name is dropped.  Second conjunct:
every listing entry of type `"dir"` that passes the (path-based, not
name-based) scope filter is retained and traversed: its recursively built
node is among the returned children, with no condition on its name. -/
theorem spec_C5 :
    (∀ (g : String → Option (List ContentItem)) (rn : String) (bp : Option String)
        (fuel : Nat) (path : String) (cd : Nat) (n p : String),
        hasExcludedExt n = true →
        ¬ FileInTree n p (fetchRepoStructureAsync g rn bp fuel path cd).1) ∧
    (∀ (g : String → Option (List ContentItem)) (rn : String) (bp : Option String)
        (fuel : Nat) (path : String) (cd : Nat) (items : List ContentItem)
        (it : ContentItem),
        computeDepth path bp < maxDepth → g path = some items →
        it ∈ items → it.type = "dir" → inScope bp it = true →
        (fetchRepoStructureAsync g rn bp fuel it.path (computeDepth path bp)).1 ∈
          ((fetchRepoStructureAsync g rn bp (fuel + 1) path cd).1).children) := by
  constructor
  · intro g rn bp fuel path cd n p hex hf
    have hfalse := walk_excluded_false fuel g rn bp path cd n p hf
    rw [hex] at hfalse
    simp at hfalse
  · intro g rn bp fuel path cd items it hd hg hmem hdir hscope
    rw [walk_succ_eq g rn bp fuel path cd items hd hg]
    simp only [Node.children]
    refine List.mem_append.mpr (Or.inr (List.mem_map.mpr ⟨it, ?_, rfl⟩))
    simp [walkDirs, retainEntries, List.mem_filter, keepItem, hdir, hmem, hscope]

/-- Witness for C5: `diagram.svg` is absent from the whole result, while
the directory `images.svg` (despite its name) is traversed and its node is
among the root's children. -/
theorem spec_C5_witness :
    hasExcludedExt "diagram.svg" = true ∧
      (¬ FileInTree "diagram.svg" "diagram.svg"
          (fetchRepoStructureAsync gC5 "repo" none 2 "" 0).1) ∧
      computeDepth "" none < maxDepth ∧
      (fetchRepoStructureAsync gC5 "repo" none 1 "images.svg" (computeDepth "" none)).1 ∈
        ((fetchRepoStructureAsync gC5 "repo" none 2 "" 0).1).children :=
  ⟨by decide,
    spec_C5.1 gC5 "repo" none 2 "" 0 "diagram.svg" "diagram.svg" (by decide),
    by decide,
    spec_C5.2 gC5 "repo" none 1 "" 0
      [⟨"file", "diagram.svg", "diagram.svg"⟩, ⟨"dir", "images.svg", "images.svg"⟩]
      ⟨"dir", "images.svg", "images.svg"⟩
      (by decide) (by decide) (by decide) (by decide) (by decide)⟩

/-- C10. The extension filter is a raw suffix test with no dot required:
names that merely end with an excluded extension string — including a file
named exactly `"png"` or one named `"mysvg"` — are dropped: no such file
node appears among a walker node's children. -/
theorem spec_C10 :
    hasExcludedExt "png" = true ∧ hasExcludedExt "mysvg" = true ∧
    (∀ (g : String → Option (List ContentItem)) (rn : String) (bp : Option String)
        (fuel : Nat) (path : String) (cd : Nat) (n p : String),
        hasExcludedExt n = true →
        Node.file n p ∉ ((fetchRepoStructureAsync g rn bp fuel path cd).1).children) := by
  refine ⟨by decide, by decide, ?_⟩
  intro g rn bp fuel path cd n p hex hmem
  have hfalse := walk_excluded_false fuel g rn bp path cd n p
    (fileInTree_of_mem_children hmem)
  rw [hex] at hfalse
  simp at hfalse

/-- Witness for C10: the files named exactly `"png"` and `"mysvg"` are both
dropped from the listing of the root. -/
theorem spec_C10_witness :
    Node.file "png" "png" ∉ ((fetchRepoStructureAsync gC10 "repo" none 1 "" 0).1).children ∧
      Node.file "mysvg" "mysvg" ∉
        ((fetchRepoStructureAsync gC10 "repo" none 1 "" 0).1).children :=
  ⟨spec_C10.2.2 gC10 "repo" none 1 "" 0 "png" "png" (by decide),
    spec_C10.2.2 gC10 "repo" none 1 "" 0 "mysvg" "mysvg" (by decide)⟩

/-! ## Claims C6-C9: the orchestrator -/

/-- A truthy, non-empty cache entry short-circuits the whole call. -/
theorem cacheHit_eq (env : Env) (pid : String) (p : Option String) (fuel : Nat)
    (v : String) (hv : env.cache (cacheKey pid p) = some v) (hne : v ≠ "") :
    getProjectStructureAsync env pid p fuel = ⟨.ok v, [], 0, 0, 0⟩ := by
  unfold getProjectStructureAsync
  simp [hv, pyTruthy, hne]

/-- C6 (amended). Below a cache miss, a missing project record fails with
NotFound (HTTP 404, `"Project not found"`), but an existing record with no
linked repository name fails with BadRequest (HTTP 400,
`"Project has no associated GitHub repository"`) — not with NotFound as the
specification claims. -/
theorem spec_C6 :
    ∀ (env : Env) (pid : String) (p : Option String) (fuel : Nat),
      pyTruthy (env.cache (cacheKey pid p)) = false →
      ((env.project pid = none →
          (getProjectStructureAsync env pid p fuel).result =
            .error (.http 404 "Project not found")) ∧
       (∀ proj : ProjectRecord, env.project pid = some proj →
          pyTruthy proj.projectName = false →
          (getProjectStructureAsync env pid p fuel).result =
            .error (.http 400 "Project has no associated GitHub repository"))) := by
  intro env pid p fuel hmiss
  constructor
  · intro hp
    unfold getProjectStructureAsync
    simp [hmiss, hp]
  · intro proj hp hname
    unfold getProjectStructureAsync
    simp [hmiss, hp, hname]

/-- Counterexample to C6 as stated: when the project record exists but has
no linked repository name, the call fails with status 400 (BadRequest), not
with NotFound (404) as the claim asserts. -/
theorem spec_C6_cex :
    exceptStatus (getProjectStructureAsync envC6 "p1" none 1).result = some 400 ∧
      (400 : Nat) ≠ 404 := by
  constructor
  · decide
  · decide

/-- Witness for C6: the missing-project arm yields the 404 and the
missing-repository arm yields the 400. -/
theorem spec_C6_witness :
    (getProjectStructureAsync envC6missing "p1" none 1).result =
        .error (.http 404 "Project not found") ∧
      (getProjectStructureAsync envC6 "p1" none 1).result =
        .error (.http 400 "Project has no associated GitHub repository") :=
  ⟨(spec_C6 envC6missing "p1" none 1 (by decide)).1 rfl,
    (spec_C6 envC6 "p1" none 1 (by decide)).2 ⟨none⟩ rfl (by decide)⟩

/-- C7. Below a cache miss, with a project that has a repository name:
an inner failure already carrying an HTTP status (here: from the
credential resolver) is re-raised unchanged to the caller; any other
exception — a non-HTTP resolver failure, or a `redis.setex` failure after
a successful walk — is converted into an Internal error (HTTP 500) whose
detail `"Failed to fetch project structure: <msg>"` carries the original
message. -/
theorem spec_C7 :
    ∀ (env : Env) (pid : String) (p : Option String) (fuel : Nat)
      (proj : ProjectRecord),
      pyTruthy (env.cache (cacheKey pid p)) = false →
      env.project pid = some proj →
      pyTruthy proj.projectName = true →
      ((∀ (s : Nat) (d : String),
          env.getRepo (proj.projectName.getD "") = .error (.http s d) →
          (getProjectStructureAsync env pid p fuel).result = .error (.http s d)) ∧
       (∀ m : String,
          env.getRepo (proj.projectName.getD "") = .error (.exn m) →
          (getProjectStructureAsync env pid p fuel).result =
            .error (.http 500 ("Failed to fetch project structure: " ++ m))) ∧
       (∀ (repo : RepoHandle) (m : String),
          env.getRepo (proj.projectName.getD "") = .ok repo →
          (pyTruthy p && (repo.contents (p.getD "")).isNone) = false →
          env.setexErr = some m →
          (getProjectStructureAsync env pid p fuel).result =
            .error (.http 500 ("Failed to fetch project structure: " ++ m)))) := by
  intro env pid p fuel proj hmiss hp hname
  refine ⟨?_, ?_, ?_⟩
  · intro s d hre
    unfold getProjectStructureAsync
    simp [hmiss, hp, hname, hre, wrapErr]
  · intro m hre
    unfold getProjectStructureAsync
    simp [hmiss, hp, hname, hre, wrapErr]
  · intro repo m hre hprobe hsetex
    unfold getProjectStructureAsync
    simp [hmiss, hp, hname, hre, hprobe, hsetex]

/-- Witness for C7: each of the three arms at a concrete environment. -/
theorem spec_C7_witness :
    (getProjectStructureAsync envC7http "p1" none 1).result =
        .error (.http 404 "Repository o/r not found or inaccessible on GitHub") ∧
      (getProjectStructureAsync envC7exn "p1" none 1).result =
        .error (.http 500 "Failed to fetch project structure: boom") ∧
      (getProjectStructureAsync envC7setex "p1" none 1).result =
        .error (.http 500 "Failed to fetch project structure: redis down") :=
  ⟨(spec_C7 envC7http "p1" none 1 ⟨some "o/r"⟩ (by decide) rfl (by decide)).1
      404 "Repository o/r not found or inaccessible on GitHub" rfl,
    (spec_C7 envC7exn "p1" none 1 ⟨some "o/r"⟩ (by decide) rfl (by decide)).2.1
      "boom" rfl,
    (spec_C7 envC7setex "p1" none 1 ⟨some "o/r"⟩ (by decide) rfl (by decide)).2.2
      ⟨"r", fun _ => some []⟩ "redis down" rfl (by decide) rfl⟩

/-- C8 (amended). If a first call returns output `t` and stores it under
the call's cache key, then — provided `t` is non-empty — any later call on
an environment whose cache still holds `t` under that key returns the
byte-identical `t` and performs no walker invocation, no credential
resolution and no existence probe.  (For an empty `t` the stored entry is
falsy on read and the second call re-walks — see the counterexample.) -/
theorem spec_C8 :
    ∀ (env : Env) (pid : String) (p : Option String) (fuel : Nat) (t : String)
      (env2 : Env),
      (getProjectStructureAsync env pid p fuel).result = .ok t →
      (getProjectStructureAsync env pid p fuel).cacheWrites = [(cacheKey pid p, t)] →
      t ≠ "" →
      env2.cache (cacheKey pid p) = some t →
      getProjectStructureAsync env2 pid p fuel = ⟨.ok t, [], 0, 0, 0⟩ :=
  fun _ pid p fuel t env2 _ _ hne hc => cacheHit_eq env2 pid p fuel t hc hne

/-- Counterexample to C8 as stated: an empty repository formats to `""`;
the first call stores `""` under the key, the entry is still present, the
second call's output is byte-identical — yet the second call walks again
(`walkerCalls = 1`), because the empty cached value is falsy on read. -/
theorem spec_C8_cex :
    (getProjectStructureAsync envC8 "p1" none 1).result = .ok "" ∧
      (getProjectStructureAsync envC8 "p1" none 1).cacheWrites =
        [(cacheKey "p1" none, "")] ∧
      envC8second.cache (cacheKey "p1" none) = some "" ∧
      (getProjectStructureAsync envC8second "p1" none 1).result = .ok "" ∧
      (getProjectStructureAsync envC8second "p1" none 1).walkerCalls = 1 := by
  refine ⟨?_, ?_, ?_, ?_, ?_⟩ <;> decide

/-- Witness for C8: with a non-empty output `"  a.txt"`, the second call is
a pure cache hit with zero walker/resolver/probe activity. -/
theorem spec_C8_witness :
    (getProjectStructureAsync envC8w "p1" none 1).result = .ok "  a.txt" ∧
      (getProjectStructureAsync envC8w "p1" none 1).cacheWrites =
        [(cacheKey "p1" none, "  a.txt")] ∧
      ("  a.txt" : String) ≠ "" ∧
      envC8wsecond.cache (cacheKey "p1" none) = some "  a.txt" ∧
      getProjectStructureAsync envC8wsecond "p1" none 1 = ⟨.ok "  a.txt", [], 0, 0, 0⟩ :=
  ⟨by decide, by decide, by decide, by decide,
    spec_C8 envC8w "p1" none 1 "  a.txt" envC8wsecond (by decide) (by decide)
      (by decide) (by decide)⟩

/-- C9 (amended). The cache lookup precedes the project lookup and the
scope-path probe: whenever the cache holds a non-empty entry under the
call's key, the call returns exactly that text with no cache write, no
credential resolution, no probe and no walker invocation — with no
assumption at all about the project record, the repository or the scope
path.  (An empty cached entry is falsy on read and does not short-circuit
— see the counterexample.) -/
theorem spec_C9 :
    ∀ (env : Env) (pid : String) (p : Option String) (fuel : Nat) (v : String),
      env.cache (cacheKey pid p) = some v → v ≠ "" →
      getProjectStructureAsync env pid p fuel = ⟨.ok v, [], 0, 0, 0⟩ :=
  fun env pid p fuel v hv hne => cacheHit_eq env pid p fuel v hv hne

/-- Counterexample to C9 as stated: the cache does contain an entry (the
empty blob) under the key, yet the call does not return it — it falls
through and fails 404 on the missing project record. -/
theorem spec_C9_cex :
    envC9.cache (cacheKey "p1" none) = some "" ∧
      (getProjectStructureAsync envC9 "p1" none 1).result =
        .error (.http 404 "Project not found") := by
  constructor
  · decide
  · decide

/-- Witness for C9: a non-empty cached entry is returned untouched even
though the project record no longer exists and the resolver would fail. -/
theorem spec_C9_witness :
    getProjectStructureAsync envC9w "p1" none 1 = ⟨.ok "  cached", [], 0, 0, 0⟩ :=
  spec_C9 envC9w "p1" none 1 "  cached" (by decide) (by decide)
